import Mathlib

/-!
Verification of the OpenVDB CI download / round-trip compression scripts
(`ci/download_vdb_caches.py`, `ci/read_write_test_compression.py`,
`ci/read_write_blosc_compression.py`) against their natural-language
specification.

The scripts are shallowly embedded: the download fan-out and the polling
completion loop become pure functions over an association list that models
the Python `downloads` dict (insertion-ordered, unique keys), the working
directory becomes an association list from file names to file contents, and
each per-job pipeline stage becomes a pure state-transformer parameterised
over the behaviour of the external collaborators (network, zip archive
contents, the opaque grid library, the `vdb_ax` subprocess).
-/

set_option autoImplicit false

namespace VdbCI

/-! ## Download fan-out and the completion (drain) loop

`download_vdb_caches.py` lines 39-71 and `read_write_test_compression.py`
lines 57-114: one `threading.Thread` is started per catalog URL; the thread
object is stored in the dict `downloads` keyed by `os.path.basename(url)`
(a Python dict keeps the first-insertion position of a key and overwrites
the value on a duplicate key).  The drain loop then repeatedly sleeps one
second, scans the dict in iteration (= insertion) order for the first
thread with `is_alive()` false, joins it, and deletes its key.

A thread is modelled by the key it is stored under and the time at which
its download finishes (`doneAt`); `is_alive` at time `t` is `t < doneAt`.
-/

/-- One fetch unit: the derived archive file name it is keyed by in the
`downloads` dict and the time its download thread finishes. -/
structure ThreadUnit where
  file : String
  doneAt : Nat
deriving DecidableEq, Repr

/-- `threading.Thread.is_alive()` at time `t`: the thread has not yet
reached its finishing time. -/
def isAlive (u : ThreadUnit) (t : Nat) : Bool :=
  decide (t < u.doneAt)

/-- Characters after the last slash: the running segment `cur` is reset on
every `'/'` and returned at the end of the string. -/
def basenameAux : List Char → List Char → List Char
  | cur, [] => cur
  | cur, c :: rest =>
      if c = '/' then basenameAux [] rest else basenameAux (cur ++ [c]) rest

/-- `os.path.basename(url)`: the part of the URL after the last slash. -/
def basename (s : String) : String :=
  String.mk (basenameAux [] s.data)

/-- Python dict assignment `d[k] = v`: if the key is present the value is
replaced in place (the key keeps its original position), otherwise the
pair is appended at the end. -/
def dictInsert (u : ThreadUnit) : List ThreadUnit → List ThreadUnit
  | [] => [u]
  | v :: rest => if v.file = u.file then u :: rest else v :: dictInsert u rest

/-- The download fan-out loop (`for url in vdb_urls: ...`): the `i`-th
iteration starts a thread finishing at time `times i` and stores it in the
dict under `basename url`.  Returns the list of all threads started (in
start order) together with the final `downloads` dict. -/
def initLoop (times : Nat → Nat) : Nat → List String → List ThreadUnit →
    List ThreadUnit × List ThreadUnit
  | _, [], dict => ([], dict)
  | i, url :: rest, dict =>
      let u : ThreadUnit := ⟨basename url, times i⟩
      let r := initLoop times (i + 1) rest (dictInsert u dict)
      (u :: r.1, r.2)

/-- Start one download thread per catalog URL, building the `downloads`
dict from an initially empty dict. -/
def initDownloads (times : Nat → Nat) (urls : List String) :
    List ThreadUnit × List ThreadUnit :=
  initLoop times 0 urls []

/-- The inner `for file, thread in downloads.items(): if not thread.is_alive()`
scan: first unit in dict order that has finished by time `t`. -/
def scanDone (t : Nat) : List ThreadUnit → Option ThreadUnit
  | [] => none
  | u :: rest => if u.doneAt ≤ t then some u else scanDone t rest

/-- The inner `while not zip_file: time.sleep(1); scan` loop: starting from
time `t`, poll at `t+1, t+2, ...` (at most `fuel` polls) until the scan
finds a finished unit; return the poll time and that unit. -/
def waitDone : Nat → Nat → List ThreadUnit → Option (Nat × ThreadUnit)
  | _, 0, _ => none
  | t, fuel + 1, units =>
      match scanDone (t + 1) units with
      | some u => some (t + 1, u)
      | none => waitDone (t + 1) fuel units

/-- Upper bound on the finishing times of the outstanding units. -/
def maxDoneAt (units : List ThreadUnit) : Nat :=
  (units.map (fun u => u.doneAt)).foldr max 0

/-- `del downloads[zip_file]`: remove the (unique) entry with the given key. -/
def eraseFile (f : String) : List ThreadUnit → List ThreadUnit
  | [] => []
  | u :: rest => if u.file = f then rest else u :: eraseFile f rest

/-- The outer `while downloads:` drain loop.  Each iteration waits for one
more unit to finish, records (poll time, unit), and deletes its dict entry.
`fuel` bounds the number of iterations; it is instantiated with the size of
the dict, which is exactly the number of iterations the Python loop makes
because every iteration removes one key. -/
def drainAux : Nat → Nat → List ThreadUnit → List (Nat × ThreadUnit)
  | 0, _, _ => []
  | fuel + 1, t, units =>
      if units.isEmpty then []
      else
        match waitDone t (maxDoneAt units + 1) units with
        | none => []
        | some r => r :: drainAux fuel r.1 (eraseFile r.2.file units)

/-- The completion tracker: drain the `downloads` dict from time `0`. -/
def drainLoop (units : List ThreadUnit) : List (Nat × ThreadUnit) :=
  drainAux units.length 0 units

example :
    initDownloads (fun _ => 0) ["a/x.zip", "b/x.zip"] =
      ([⟨"x.zip", 0⟩, ⟨"x.zip", 0⟩], [⟨"x.zip", 0⟩]) := by decide

example :
    drainLoop [⟨"x.zip", 0⟩, ⟨"y.zip", 2⟩] =
      [(1, ⟨"x.zip", 0⟩), (2, ⟨"y.zip", 2⟩)] := by decide

/-! ### Lemmas about the fan-out loop and the drain loop -/

theorem initLoop_fst_length (times : Nat → Nat) :
    ∀ (urls : List String) (i : Nat) (dict : List ThreadUnit),
      (initLoop times i urls dict).1.length = urls.length := by
  intro urls
  induction urls with
  | nil => intro i dict; rfl
  | cons url rest ih =>
      intro i dict
      simp only [initLoop, List.length_cons]
      rw [ih]

theorem mem_map_file_dictInsert (k : String) (u : ThreadUnit) (d : List ThreadUnit) :
    k ∈ (dictInsert u d).map (fun v => v.file) ↔
      k = u.file ∨ k ∈ d.map (fun v => v.file) := by
  induction d with
  | nil => simp [dictInsert, eq_comm]
  | cons v rest ih =>
      by_cases h : v.file = u.file
      · simp [dictInsert, h, eq_comm]
      · simp only [dictInsert, if_neg h, List.map_cons, List.mem_cons, ih]
        tauto

theorem nodup_dictInsert (u : ThreadUnit) (d : List ThreadUnit)
    (h : (d.map (fun v => v.file)).Nodup) :
    ((dictInsert u d).map (fun v => v.file)).Nodup := by
  induction d with
  | nil => simp [dictInsert]
  | cons v rest ih =>
      simp only [List.map_cons, List.nodup_cons] at h
      by_cases hv : v.file = u.file
      · simp only [dictInsert, if_pos hv, List.map_cons, List.nodup_cons]
        exact ⟨hv ▸ h.1, h.2⟩
      · simp only [dictInsert, if_neg hv, List.map_cons, List.nodup_cons]
        refine ⟨?_, ih h.2⟩
        rw [mem_map_file_dictInsert]
        rintro (hc | hc)
        · exact hv hc
        · exact h.1 hc

theorem initLoop_dict_nodup (times : Nat → Nat) :
    ∀ (urls : List String) (i : Nat) (dict : List ThreadUnit),
      (dict.map (fun v => v.file)).Nodup →
      ((initLoop times i urls dict).2.map (fun v => v.file)).Nodup := by
  intro urls
  induction urls with
  | nil => intro i dict h; exact h
  | cons url rest ih =>
      intro i dict h
      exact ih (i + 1) _ (nodup_dictInsert _ _ h)

theorem toFinset_map_file_dictInsert (u : ThreadUnit) (d : List ThreadUnit) :
    ((dictInsert u d).map (fun v => v.file)).toFinset =
      insert u.file (d.map (fun v => v.file)).toFinset := by
  ext k
  simp only [List.mem_toFinset, Finset.mem_insert]
  exact mem_map_file_dictInsert k u d

theorem initLoop_dict_toFinset (times : Nat → Nat) :
    ∀ (urls : List String) (i : Nat) (dict : List ThreadUnit),
      ((initLoop times i urls dict).2.map (fun v => v.file)).toFinset =
        (urls.map basename).toFinset ∪ (dict.map (fun v => v.file)).toFinset := by
  intro urls
  induction urls with
  | nil => intro i dict; simp [initLoop]
  | cons url rest ih =>
      intro i dict
      simp only [initLoop, List.map_cons, List.toFinset_cons]
      rw [ih, toFinset_map_file_dictInsert]
      ext k
      simp only [Finset.mem_union, Finset.mem_insert, List.mem_toFinset]
      tauto

theorem scanDone_eq_some {t : Nat} {units : List ThreadUnit} {u : ThreadUnit}
    (h : scanDone t units = some u) : u ∈ units ∧ u.doneAt ≤ t := by
  induction units with
  | nil => simp [scanDone] at h
  | cons v rest ih =>
      by_cases hv : v.doneAt ≤ t
      · simp only [scanDone, if_pos hv, Option.some.injEq] at h
        exact ⟨h ▸ List.mem_cons_self v rest, h ▸ hv⟩
      · simp only [scanDone, if_neg hv] at h
        exact ⟨List.mem_cons_of_mem v (ih h).1, (ih h).2⟩

theorem head_doneAt_le_maxDoneAt (u : ThreadUnit) (rest : List ThreadUnit) :
    u.doneAt ≤ maxDoneAt (u :: rest) := by
  simp only [maxDoneAt, List.map_cons, List.foldr_cons]
  exact le_max_left _ _

theorem scanDone_isSome {t : Nat} {units : List ThreadUnit}
    (hne : units ≠ []) (hmax : maxDoneAt units ≤ t) : (scanDone t units).isSome := by
  match units with
  | [] => exact absurd rfl hne
  | u :: rest =>
      have hd : u.doneAt ≤ t := le_trans (head_doneAt_le_maxDoneAt u rest) hmax
      simp [scanDone, if_pos hd]

theorem waitDone_eq_some {t fuel : Nat} {units : List ThreadUnit}
    {t' : Nat} {u : ThreadUnit} (h : waitDone t fuel units = some (t', u)) :
    u ∈ units ∧ u.doneAt ≤ t' := by
  induction fuel generalizing t with
  | zero => simp [waitDone] at h
  | succ f ih =>
      simp only [waitDone] at h
      cases hscan : scanDone (t + 1) units with
      | some v =>
          rw [hscan] at h
          simp only [Option.some.injEq, Prod.mk.injEq] at h
          obtain ⟨ht, hu⟩ := h
          have := scanDone_eq_some hscan
          exact ⟨hu ▸ this.1, ht ▸ hu ▸ this.2⟩
      | none =>
          rw [hscan] at h
          exact ih h

theorem waitDone_isSome {t fuel : Nat} {units : List ThreadUnit}
    (hne : units ≠ []) (hfuel : 0 < fuel) (hmax : maxDoneAt units ≤ t + fuel) :
    (waitDone t fuel units).isSome := by
  induction fuel generalizing t with
  | zero => exact absurd hfuel (by simp)
  | succ f ih =>
      simp only [waitDone]
      cases hscan : scanDone (t + 1) units with
      | some v => simp
      | none =>
          cases Nat.eq_zero_or_pos f with
          | inl hf =>
              subst hf
              have : maxDoneAt units ≤ t + 1 := by omega
              have := scanDone_isSome hne this
              rw [hscan] at this
              simp at this
          | inr hf =>
              exact ih hf (by omega)

theorem map_file_eraseFile (f : String) (units : List ThreadUnit) :
    (eraseFile f units).map (fun v => v.file) =
      (units.map (fun v => v.file)).erase f := by
  induction units with
  | nil => rfl
  | cons u rest ih =>
      by_cases hu : u.file = f
      · simp [eraseFile, if_pos hu, List.map_cons, List.erase_cons, hu]
      · simp [eraseFile, if_neg hu, List.map_cons, List.erase_cons, hu, ih]

theorem drainAux_perm :
    ∀ (fuel t : Nat) (units : List ThreadUnit), units.length = fuel →
      ((units.map (fun v => v.file)).Nodup) →
      ((drainAux fuel t units).map (fun p => p.2.file)).Perm
        (units.map (fun v => v.file)) := by
  intro fuel
  induction fuel with
  | zero =>
      intro t units hlen _
      rw [List.length_eq_zero] at hlen
      subst hlen
      simp [drainAux]
  | succ f ih =>
      intro t units hlen hnd
      have hne : units ≠ [] := by
        intro hc; subst hc; simp at hlen
      have hsome : (waitDone t (maxDoneAt units + 1) units).isSome :=
        waitDone_isSome hne (by omega) (by omega)
      simp only [drainAux, List.isEmpty_eq_true]
      rw [if_neg hne]
      cases hw : waitDone t (maxDoneAt units + 1) units with
      | none => rw [hw] at hsome; simp at hsome
      | some r =>
          obtain ⟨t', u⟩ := r
          have hmem := (waitDone_eq_some hw).1
          have hfmem : u.file ∈ units.map (fun v => v.file) :=
            List.mem_map_of_mem _ hmem
          have herase : (eraseFile u.file units).map (fun v => v.file) =
              (units.map (fun v => v.file)).erase u.file :=
            map_file_eraseFile u.file units
          have hlen' : (eraseFile u.file units).length = f := by
            have h1 : (eraseFile u.file units).length =
                ((eraseFile u.file units).map (fun v => v.file)).length := by
              simp
            have h2 : (units.map (fun v => v.file)).length = f + 1 := by
              simpa using hlen
            rw [h1, herase, List.length_erase_of_mem hfmem, h2]
            omega
          have hnd' : ((eraseFile u.file units).map (fun v => v.file)).Nodup := by
            rw [herase]; exact hnd.erase u.file
          have hrec := ih t' (eraseFile u.file units) hlen' hnd'
          rw [herase] at hrec
          simp only [List.map_cons]
          exact (List.Perm.cons u.file hrec).trans (List.perm_cons_erase hfmem).symm

theorem drainAux_doneAt_le :
    ∀ (fuel t : Nat) (units : List ThreadUnit) (p : Nat × ThreadUnit),
      p ∈ drainAux fuel t units → p.2.doneAt ≤ p.1 := by
  intro fuel
  induction fuel with
  | zero => intro t units p h; simp [drainAux] at h
  | succ f ih =>
      intro t units p h
      simp only [drainAux] at h
      by_cases hne : units.isEmpty
      · rw [if_pos hne] at h; simp at h
      · rw [if_neg hne] at h
        cases hw : waitDone t (maxDoneAt units + 1) units with
        | none => rw [hw] at h; simp at h
        | some r =>
            obtain ⟨t', u⟩ := r
            rw [hw] at h
            rcases List.mem_cons.mp h with hp | hp
            · subst hp
              exact (waitDone_eq_some hw).2
            · exact ih _ _ p hp

/-- The `downloads` dict built by the fan-out loop has pairwise distinct
keys, since Python dict keys are unique. -/
theorem initDownloads_dict_nodup (times : Nat → Nat) (urls : List String) :
    (((initDownloads times urls).2).map (fun v => v.file)).Nodup :=
  initLoop_dict_nodup times urls 0 [] (by simp)

/-- The key set of the `downloads` dict is exactly the set of derived
archive file names of the catalog. -/
theorem initDownloads_dict_toFinset (times : Nat → Nat) (urls : List String) :
    (((initDownloads times urls).2).map (fun v => v.file)).toFinset =
      (urls.map basename).toFinset := by
  have := initLoop_dict_toFinset times urls 0 []
  simpa [initDownloads] using this

/-- Claim C1, counterexample.  A catalog of two entries whose URLs share the
derived archive file name `x.zip`: two fetch threads are started, but the
`downloads` dict collapses the two entries to one key, so the completion
loop drains only one unit — not two as the claim requires.  (The real
catalog in both scripts contains the armadillo and buddha URLs twice, so
this situation occurs in every actual run.) -/
theorem c1_counterexample :
    (initDownloads (fun _ => 0) ["a/x.zip", "b/x.zip"]).1.length = 2 ∧
    (drainLoop (initDownloads (fun _ => 0) ["a/x.zip", "b/x.zip"]).2).length = 1 ∧
    (1 : Nat) ≠ 2 := by decide

/-- Claim C1, amended: for a catalog of `N` URLs, exactly `N` fetch threads
are started, but the number of units drained by the completion loop equals
the number of DISTINCT derived archive file names (`os.path.basename`), not
`N`: a later catalog entry with the same derived name overwrites the
earlier entry's thread in the `downloads` dict, and the overwritten thread
is never joined or drained. -/
theorem c1_theorem (times : Nat → Nat) (urls : List String) :
    (initDownloads times urls).1.length = urls.length ∧
    (drainLoop (initDownloads times urls).2).length =
      ((urls.map basename).toFinset).card := by
  constructor
  · exact initLoop_fst_length times urls 0 []
  · have hnd := initDownloads_dict_nodup times urls
    have hperm := drainAux_perm (initDownloads times urls).2.length 0
      (initDownloads times urls).2 rfl hnd
    have h1 : (drainLoop (initDownloads times urls).2).length =
        ((initDownloads times urls).2.map (fun v => v.file)).length := by
      have := hperm.length_eq
      simpa [drainLoop] using this
    rw [h1, ← List.toFinset_card_of_nodup hnd, initDownloads_dict_toFinset]

/-- Claim C4: the completion loop never yields the same fetch unit twice
(the drained key sequence has no duplicates), and every unit it yields has
`is_alive() = False` at the poll time at which it is yielded, i.e. a unit
is never yielded while still pending or running. -/
theorem c4_theorem (times : Nat → Nat) (urls : List String) :
    ((drainLoop (initDownloads times urls).2).map (fun p => p.2.file)).Nodup ∧
    ∀ p ∈ drainLoop (initDownloads times urls).2, isAlive p.2 p.1 = false := by
  constructor
  · have hnd := initDownloads_dict_nodup times urls
    have hperm := drainAux_perm (initDownloads times urls).2.length 0
      (initDownloads times urls).2 rfl hnd
    exact hperm.nodup_iff.mpr hnd
  · intro p hp
    have hle := drainAux_doneAt_le (initDownloads times urls).2.length 0
      (initDownloads times urls).2 p hp
    simp only [isAlive, decide_eq_false_iff_not, Nat.not_lt]
    exact hle

/-- Claim C4, witness: the theorem applied to a concrete one-entry catalog;
the drained unit `("x.zip", done at time 0)` is yielded at poll time `1`,
where its thread is no longer alive. -/
theorem c4_witness :
    ((drainLoop (initDownloads (fun _ => 0) ["a/x.zip"]).2).map
        (fun p => p.2.file)).Nodup ∧
    isAlive (⟨"x.zip", 0⟩ : ThreadUnit) 1 = false := by
  refine ⟨(c4_theorem (fun _ => 0) ["a/x.zip"]).1, ?_⟩
  exact (c4_theorem (fun _ => 0) ["a/x.zip"]).2 (1, ⟨"x.zip", 0⟩) (by decide)

/-! ## The working directory and the opaque grid library

The working directory is an association list from file names to file
contents.  A file's content is what the per-job pipeline observes of it:
the list of grids the grid library reads from it and its size in bytes.

The grid library `pyopenvdb` belongs to this repository but is not among
the given sources; it is modelled from the spec's description of the
external interfaces, constrained by how the scripts themselves use it. -/

/-- One named, typed data unit (grid) inside a grid file. -/
structure Grid where
  name : String
  valueTypeName : String
deriving DecidableEq, Repr

/-- Observable content of a file: the grids it holds and its byte size
(`os.path.getsize`). -/
structure FileData where
  grids : List Grid
  size : Nat
deriving DecidableEq, Repr

/-- The working directory: file name to content, no duplicates by
construction of the operations below. -/
abbrev FS := List (String × FileData)

/-- `os.path.isfile`. -/
def isfile (f : String) (fs : FS) : Bool :=
  fs.any (fun e => e.1 == f)

/-- Content lookup backing the reads of the grid library and
`os.path.getsize`. -/
def getData (f : String) (fs : FS) : Option FileData :=
  (fs.find? (fun e => e.1 == f)).map Prod.snd

/-- Create a file or overwrite an existing one. -/
def fsSet (f : String) (d : FileData) (fs : FS) : FS :=
  (f, d) :: fs.filter (fun e => e.1 != f)

/-- Deletion of every entry named `f` (the effect of a successful
`os.remove`). -/
def osRemoveRaw (f : String) (fs : FS) : FS :=
  fs.filter (fun e => e.1 != f)

/-- `os.remove`: raises (`none`) if the file does not exist. -/
def os_remove (f : String) (fs : FS) : Option FS :=
  if isfile f fs then some (osRemoveRaw f fs) else none

/-- The guarded deletion idiom `if os.path.isfile(f): os.remove(f)` used by
every cleanup line of the scripts. -/
def removeGuarded (f : String) (fs : FS) : Option FS :=
  if isfile f fs then os_remove f fs else some fs

/-- Modelled from the spec: `pyopenvdb.readAll` of the opaque grid library
(part of this repository, but not among the given source files).  Its
documented signature is `readAll(filename) -> list, dict`: it returns a
PAIR of the grid list and a dict of file-level metadata.  The scripts'
own usage requires exactly this shape: they index the result twice
(`grids[0][0].name`) and pass `grids[0]` — the grid list — to `write`.
The metadata dict plays no role in the scripts and is modelled as `Unit`.
Reading a missing file raises (`none`). -/
def readAll (f : String) (fs : FS) : Option (List Grid × Unit) :=
  (getData f fs).map (fun d => (d.grids, ()))

/-- Python's `len` applied to a value of 2-tuple shape: the number of tuple
components, which is 2 whatever the tuple holds. -/
def pyTupleLen {α β : Type} (_p : α × β) : Nat := 2

/-- Modelled from the spec: `pyopenvdb.readAllGridMetadata` returns the
plain list of grids of a file, populated with metadata only (documented
signature `readAllGridMetadata(filename) -> list`); the scripts index its
result once (`grids[0].valueTypeName`).  Reading a missing file raises. -/
def readAllGridMetadata (f : String) (fs : FS) : Option (List Grid) :=
  (getData f fs).map (fun d => d.grids)

/-- Outcome of the shared read/rename/write/re-read/ratio block
(`read_write_test_compression.py` lines 133-151,
`read_write_blosc_compression.py` lines 62-80). -/
structure TryOut where
  fs : FS
  raised : Bool
  multErr : Bool
  ratioRep : Option ℚ
deriving Repr

/-- The shared validator core, one branch per Python statement that can
raise.  `writeSize` is the byte size the grid library produces when
writing a given grid list (opaque collaborator behaviour).

* `vdb.readAll(src)` raises on a missing file;
* `if len(grids) > 2: raise RuntimeError(...)` — `grids` is the PAIR
  returned by `readAll`, so `len(grids)` is `pyTupleLen grids = 2`;
* `grids[0][0].name += '_output'` raises `IndexError` on an empty grid
  list and otherwise renames the first grid of the list in memory;
* `vdb.write(dst, grids[0])` writes the whole (renamed) grid list;
* `compressed = vdb.readAll(dst)` re-reads the written file;
* `os.path.getsize` on both files, then
  `src_size / float(dst_size)`, which raises `ZeroDivisionError` when
  the written size is zero.

Any raise is caught by the surrounding `except Exception` handler
(`raised := true`); the working directory keeps whatever state it had at
the point of the raise. -/
def rwCore (writeSize : List Grid → Nat) (src dst : String) (fs : FS) : TryOut :=
  match readAll src fs with
  | none => ⟨fs, true, false, none⟩
  | some grids =>
    if pyTupleLen grids > 2 then ⟨fs, true, true, none⟩
    else
      match grids.1 with
      | [] => ⟨fs, true, false, none⟩
      | g :: rest =>
          let renamed := { g with name := g.name ++ "_output" } :: rest
          let fs1 := fsSet dst ⟨renamed, writeSize renamed⟩ fs
          match readAll dst fs1 with
          | none => ⟨fs1, true, false, none⟩
          | some _ =>
              match getData src fs1, getData dst fs1 with
              | some ds, some dd =>
                  if dd.size = 0 then ⟨fs1, true, false, none⟩
                  else ⟨fs1, false, false, some ((ds.size : ℚ) / (dd.size : ℚ))⟩
              | _, _ => ⟨fs1, true, false, none⟩

/-- The `diff` helper shared by both round-trip scripts: read the metadata
fingerprints of the first grid of each file, `assert(a!=b)`, run the
`vdb_ax` subprocess and report a mismatch exactly when its stdout
(`axOut`) is non-empty.  `none` models an uncaught raise inside `diff`
(assertion failure, `IndexError` on an empty grid list, or a missing
file), which kills the whole process since `diff` is called outside the
`try` block; `some b` means `diff` returned, with `b` recording whether
the "differ" line was printed. -/
def diffRun (axOut : String) (src dst : String) (fs : FS) : Option Bool :=
  match readAllGridMetadata src fs, readAllGridMetadata dst fs with
  | some ga, some gb =>
      match ga, gb with
      | a0 :: _, b0 :: _ =>
          let a := a0.valueTypeName ++ "@" ++ a0.name
          let b := b0.valueTypeName ++ "@" ++ b0.name
          if a = b then none
          else if axOut = "" then some false else some true
      | _, _ => none
  | _, _ => none

/-- The cleanup block of `read_write_test_compression.py` (lines 165-167):
guarded deletion of the extracted file, the transformed file and the
archive, in that order.  `none` would mean one of the deletions raised. -/
def cleanupRWT (src dst zip : String) (fs : FS) : Option FS := do
  let fs1 ← removeGuarded src fs
  let fs2 ← removeGuarded dst fs1
  removeGuarded zip fs2

/-- The cleanup block of `read_write_blosc_compression.py` (lines 93-94). -/
def cleanupRWB (src dst : String) (fs : FS) : Option FS := do
  let fs1 ← removeGuarded src fs
  removeGuarded dst fs1

/-! ## Per-job pipelines of the three scripts -/

/-- Characters of `l` before the first occurrence of `sep`. -/
def splitHeadAux (sep : List Char) : List Char → List Char
  | [] => []
  | c :: rest =>
      if sep.isPrefixOf (c :: rest) then [] else c :: splitHeadAux sep rest

/-- Python `s.split(sep)[0]` for a non-empty separator: the part of `s`
before the first occurrence of `sep` (all of `s` when `sep` does not
occur). -/
def splitHead (sep s : String) : String :=
  String.mk (splitHeadAux sep.data s.data)

/-- Python `str.replace(pat, rep)` over the character list, replacing
non-overlapping occurrences left to right; the `fuel` argument (the input
length) only serves structural termination. -/
def replaceAux (pat rep : List Char) : Nat → List Char → List Char
  | _, [] => []
  | 0, l => l
  | fuel + 1, c :: rest =>
      if pat.isPrefixOf (c :: rest) then
        rep ++ replaceAux pat rep fuel (rest.drop (pat.length - 1))
      else c :: replaceAux pat rep fuel rest

/-- Python `s.replace(pat, rep)` for a non-empty pattern. -/
def strReplace (s pat rep : String) : String :=
  String.mk (replaceAux pat.data rep.data s.data.length s.data)

/-- Python `aliases.get(k)` on the alias dict. -/
def dictGet (aliases : List (String × String)) (k : String) : Option String :=
  (aliases.find? (fun e => e.1 == k)).map Prod.snd

/-- Name derivation of `read_write_test_compression.py` lines 119-120:
`name = vdb_aliases.get(zip_file)` and, when that is `None` (or the falsy
empty string), `name = zip_file.split('.vdb')[0]`. -/
def deriveNameRWT (aliases : List (String × String)) (zipFile : String) : String :=
  match dictGet aliases zipFile with
  | some n => if n = "" then splitHead ".vdb" zipFile else n
  | none => splitHead ".vdb" zipFile

/-- Name derivation of `read_write_blosc_compression.py` lines 55-57: the
alias dict is consulted with `src_file.replace('_blosc', '')` and the
fallback is `src_file.split('.vdb')[0]`. -/
def deriveNameRWB (aliases : List (String × String)) (srcFile : String) : String :=
  match dictGet aliases (strReplace srcFile "_blosc" "") with
  | some n => if n = "" then splitHead ".vdb" srcFile else n
  | none => splitHead ".vdb" srcFile

/-- `zip_ref.extractall()`: write every archive entry into the working
directory.  The archive's entry list is a parameter (collaborator
behaviour); extraction failure is modelled at the call sites by an
`Option` around the entry list. -/
def extractAll (entries : FS) (fs : FS) : FS :=
  entries.foldl (fun a e => fsSet e.1 e.2 a) fs

/-- Outcome of the try block of `read_write_test_compression.py`
lines 122-156, together with the final values of the `src_file` /
`dst_file` variables (empty strings unless extraction succeeded, since
they are assigned after `extractall`). -/
structure TryRWT where
  fs : FS
  src : String
  dst : String
  raised : Bool
  multErr : Bool
  ratioRep : Option ℚ
deriving Repr

/-- The try block of `read_write_test_compression.py` (lines 122-156):
extract the archive (`none` = extraction raised), derive the source and
destination file names, then run the shared validator core. -/
def rwtTryPhase (aliases : List (String × String)) (extractResult : Option FS)
    (writeSize : List Grid → Nat) (zipFile : String) (fs : FS) : TryRWT :=
  let name := deriveNameRWT aliases zipFile
  match extractResult with
  | none => ⟨fs, "", "", true, false, none⟩
  | some entries =>
      let fs1 := extractAll entries fs
      let src := name ++ ".vdb"
      let dst := name ++ "_blosc_compressed.vdb"
      let core := rwCore writeSize src dst fs1
      ⟨core.fs, src, dst, core.raised, core.multErr, core.ratioRep⟩

/-- Observable outcome of one whole job of a round-trip script. -/
structure JobOut where
  fs : FS
  src : String
  dst : String
  raised : Bool
  multErr : Bool
  ratioRep : Option ℚ
  differInvoked : Bool
  differRep : Bool
  aborted : Bool
deriving Repr

/-- The part of a `read_write_test_compression.py` job after the try
block (lines 158-167): when AX support was detected at startup and both
files exist, call `diff`; then run cleanup.  `aborted` records an
uncaught raise (inside `diff`, or an unguarded deletion failing), which
would kill the process before cleanup completes. -/
def rwtPostPhase (axEnabled : Bool) (axOut zipFile : String) (t : TryRWT) : JobOut :=
  let invoked := axEnabled && (isfile t.src t.fs && isfile t.dst t.fs)
  let diffRes := if invoked then diffRun axOut t.src t.dst t.fs else some false
  match diffRes with
  | none => ⟨t.fs, t.src, t.dst, t.raised, t.multErr, t.ratioRep, invoked, false, true⟩
  | some rep =>
      match cleanupRWT t.src t.dst zipFile t.fs with
      | none => ⟨t.fs, t.src, t.dst, t.raised, t.multErr, t.ratioRep, invoked, rep, true⟩
      | some fs2 => ⟨fs2, t.src, t.dst, t.raised, t.multErr, t.ratioRep, invoked, rep, false⟩

/-- One full job of `read_write_test_compression.py` (lines 110-167): the
try block, then diff gate and cleanup. -/
def rwtProcessJob (axEnabled : Bool) (aliases : List (String × String))
    (extractResult : Option FS) (writeSize : List Grid → Nat) (axOut : String)
    (zipFile : String) (fs : FS) : JobOut :=
  rwtPostPhase axEnabled axOut zipFile
    (rwtTryPhase aliases extractResult writeSize zipFile fs)

/-- One job of `download_vdb_caches.py` (lines 73-86): extract the archive
and, only after successful extraction, delete it (guarded); any raise is
caught and leaves the working directory as it was at the raise.  This
script has no cleanup stage: the extracted files are its product. -/
def dlProcessJob (extractResult : Option FS) (zipFile : String) (fs : FS) : FS :=
  match extractResult with
  | none => fs
  | some entries =>
      let fs1 := extractAll entries fs
      match removeGuarded zipFile fs1 with
      | some fs2 => fs2
      | none => fs1

/-- The part of a `read_write_blosc_compression.py` job after the try
block (lines 87-94): the `diff` call whenever both files exist (no AX gate
in this script), then cleanup of source and destination files. -/
def rwbPostPhase (axOut src dst : String) (core : TryOut) : JobOut :=
  let invoked := isfile src core.fs && isfile dst core.fs
  let diffRes := if invoked then diffRun axOut src dst core.fs else some false
  match diffRes with
  | none => ⟨core.fs, src, dst, core.raised, core.multErr, core.ratioRep, invoked, false, true⟩
  | some rep =>
      match cleanupRWB src dst core.fs with
      | none => ⟨core.fs, src, dst, core.raised, core.multErr, core.ratioRep, invoked, rep, true⟩
      | some fs2 => ⟨fs2, src, dst, core.raised, core.multErr, core.ratioRep, invoked, rep, false⟩

/-- One job of `read_write_blosc_compression.py` (lines 49-94): the
validator core on an already-present `.vdb` file, then diff and cleanup. -/
def rwbProcessJob (aliases : List (String × String)) (writeSize : List Grid → Nat)
    (axOut : String) (srcFile : String) (fs : FS) : JobOut :=
  let name := deriveNameRWB aliases srcFile
  rwbPostPhase axOut srcFile (name ++ "_output.vdb")
    (rwCore writeSize srcFile (name ++ "_output.vdb") fs)

example :
    deriveNameRWT [("torus_knot.vdb-1.0.0.zip", "torus_knot_helix")]
      "torus_knot.vdb-1.0.0.zip" = "torus_knot_helix" := by decide

example : deriveNameRWT [] "armadillo.vdb-1.0.0.zip" = "armadillo" := by decide

example : deriveNameRWB [] "smoke_blosc.vdb" = "smoke_blosc" := by decide

example : strReplace "smoke_blosc.vdb" "_blosc" "" = "smoke.vdb" := by decide

/-! ### Lemmas about the working-directory operations -/

theorem isfile_osRemoveRaw_self (f : String) (fs : FS) :
    isfile f (osRemoveRaw f fs) = false := by
  simp only [isfile, osRemoveRaw, List.any_eq_false]
  intro e he
  have := (List.mem_filter.mp he).2
  simpa [bne] using this

theorem isfile_osRemoveRaw_mono {f : String} (g : String) {fs : FS}
    (h : isfile f fs = false) : isfile f (osRemoveRaw g fs) = false := by
  simp only [isfile, List.any_eq_false] at h ⊢
  intro e he
  exact h e (List.mem_filter.mp he).1

theorem osRemoveRaw_of_not_isfile {f : String} {fs : FS}
    (h : isfile f fs = false) : osRemoveRaw f fs = fs := by
  apply List.filter_eq_self.mpr
  intro e he
  simp only [isfile, List.any_eq_false] at h
  have := h e he
  simpa [bne] using this

theorem removeGuarded_eq (f : String) (fs : FS) :
    removeGuarded f fs = some (osRemoveRaw f fs) := by
  by_cases h : isfile f fs
  · simp [removeGuarded, os_remove, h]
  · rw [removeGuarded]
    simp only [Bool.not_eq_true] at h
    rw [h]
    simp [osRemoveRaw_of_not_isfile h]

theorem osRemoveRaw_idem (f : String) (fs : FS) :
    osRemoveRaw f (osRemoveRaw f fs) = osRemoveRaw f fs :=
  osRemoveRaw_of_not_isfile (isfile_osRemoveRaw_self f fs)

theorem cleanupRWT_eq (src dst zip : String) (fs : FS) :
    cleanupRWT src dst zip fs =
      some (osRemoveRaw zip (osRemoveRaw dst (osRemoveRaw src fs))) := by
  simp [cleanupRWT, removeGuarded_eq, Option.bind]

theorem cleanupRWB_eq (src dst : String) (fs : FS) :
    cleanupRWB src dst fs = some (osRemoveRaw dst (osRemoveRaw src fs)) := by
  simp [cleanupRWB, removeGuarded_eq, Option.bind]

theorem getData_fsSet_self (f : String) (d : FileData) (fs : FS) :
    getData f (fsSet f d fs) = some d := by
  simp [getData, fsSet, List.find?]

theorem find?_filter_other {f g : String} (h : g ≠ f) (fs : FS) :
    (fs.filter (fun e => e.1 != f)).find? (fun e => e.1 == g) =
      fs.find? (fun e => e.1 == g) := by
  induction fs with
  | nil => rfl
  | cons e rest ih =>
      by_cases hef : e.1 = f
      · have h2 : ¬ ((e.1 == g) = true) := by
          simp only [beq_iff_eq]
          rw [hef]
          exact fun hc => h hc.symm
        rw [List.filter_cons_of_neg (by simp [hef]),
          List.find?_cons_of_neg rest h2, ih]
      · rw [List.filter_cons_of_pos (by simp [hef])]
        by_cases heg : e.1 = g
        · rw [List.find?_cons_of_pos _ (by simp [heg]),
            List.find?_cons_of_pos _ (by simp [heg])]
        · rw [List.find?_cons_of_neg _ (by simp [heg]),
            List.find?_cons_of_neg _ (by simp [heg]), ih]

theorem getData_fsSet_other {f g : String} (h : g ≠ f) (d : FileData) (fs : FS) :
    getData g (fsSet f d fs) = getData g fs := by
  have hfg : (f == g) = false := by
    simp
    intro hc
    exact h hc.symm
  simp [getData, fsSet, List.find?, hfg, find?_filter_other h]

theorem isfile_fsSet_self (f : String) (d : FileData) (fs : FS) :
    isfile f (fsSet f d fs) = true := by
  simp [isfile, fsSet]

theorem isfile_eq_isSome_getData (f : String) (fs : FS) :
    isfile f fs = (getData f fs).isSome := by
  induction fs with
  | nil => rfl
  | cons e rest ih =>
      by_cases he : e.1 = f
      · simp [isfile, getData, List.find?, he]
      · simp only [isfile, List.any_cons, getData, List.find?] at ih ⊢
        have : (e.1 == f) = false := by simpa using he
        rw [this]
        simpa using ih

/-! ### Lemmas about the validator core -/

theorem rwCore_after_write (writeSize : List Grid → Nat) (src dst : String)
    (fs : FS) (g : Grid) (rest : List Grid) (sz : Nat)
    (h : getData src fs = some ⟨g :: rest, sz⟩) :
    (rwCore writeSize src dst fs).fs =
      fsSet dst ⟨{ g with name := g.name ++ "_output" } :: rest,
        writeSize ({ g with name := g.name ++ "_output" } :: rest)⟩ fs ∧
    (rwCore writeSize src dst fs).multErr = false := by
  have hra : readAll src fs = some (g :: rest, ()) := by simp [readAll, h]
  simp only [rwCore, hra]
  rw [if_neg (by simp [pyTupleLen])]
  simp only [readAll, getData_fsSet_self, Option.map_some']
  rcases hs : getData src (fsSet dst
      ⟨{ g with name := g.name ++ "_output" } :: rest,
        writeSize ({ g with name := g.name ++ "_output" } :: rest)⟩ fs) with _ | ds
  · simp [getData_fsSet_self]
  · by_cases hz : writeSize ({ g with name := g.name ++ "_output" } :: rest) = 0
    · simp [getData_fsSet_self, hz]
    · simp [getData_fsSet_self, hz]

theorem rwCore_success (writeSize : List Grid → Nat) (src dst : String)
    (fs : FS) (g : Grid) (rest : List Grid) (sz : Nat)
    (hne : src ≠ dst)
    (h : getData src fs = some ⟨g :: rest, sz⟩)
    (hw : writeSize ({ g with name := g.name ++ "_output" } :: rest) ≠ 0) :
    rwCore writeSize src dst fs =
      ⟨fsSet dst ⟨{ g with name := g.name ++ "_output" } :: rest,
          writeSize ({ g with name := g.name ++ "_output" } :: rest)⟩ fs,
        false, false,
        some ((sz : ℚ) /
          (writeSize ({ g with name := g.name ++ "_output" } :: rest) : ℚ))⟩ := by
  have hra : readAll src fs = some (g :: rest, ()) := by simp [readAll, h]
  have hs : getData src (fsSet dst
      ⟨{ g with name := g.name ++ "_output" } :: rest,
        writeSize ({ g with name := g.name ++ "_output" } :: rest)⟩ fs) =
      some ⟨g :: rest, sz⟩ := by
    rw [getData_fsSet_other hne]
    exact h
  simp only [rwCore, hra]
  rw [if_neg (by simp [pyTupleLen])]
  simp only [readAll, getData_fsSet_self, Option.map_some', hs, hw]
  simp [hw]

/-! ### Lemmas about the post-try phases -/

theorem rwtPostPhase_fs_of_not_aborted (axE : Bool) (axOut zip : String)
    (t : TryRWT) (hab : (rwtPostPhase axE axOut zip t).aborted = false) :
    (rwtPostPhase axE axOut zip t).fs =
      osRemoveRaw zip (osRemoveRaw t.dst (osRemoveRaw t.src t.fs)) := by
  simp only [rwtPostPhase, cleanupRWT_eq] at hab ⊢
  rcases hd : (if axE && (isfile t.src t.fs && isfile t.dst t.fs) then
      diffRun axOut t.src t.dst t.fs else some false) with _ | rep
  · rw [hd] at hab
    simp at hab
  · rfl

theorem rwbPostPhase_fs_of_not_aborted (axOut src dst : String)
    (core : TryOut) (hab : (rwbPostPhase axOut src dst core).aborted = false) :
    (rwbPostPhase axOut src dst core).fs =
      osRemoveRaw dst (osRemoveRaw src core.fs) := by
  simp only [rwbPostPhase, cleanupRWB_eq] at hab ⊢
  rcases hd : (if isfile src core.fs && isfile dst core.fs then
      diffRun axOut src dst core.fs else some false) with _ | rep
  · rw [hd] at hab
    simp at hab
  · rfl

theorem rwtPostPhase_src (axE : Bool) (axOut zip : String) (t : TryRWT) :
    (rwtPostPhase axE axOut zip t).src = t.src := by
  simp only [rwtPostPhase, cleanupRWT_eq]
  rcases hd : (if axE && (isfile t.src t.fs && isfile t.dst t.fs) then
      diffRun axOut t.src t.dst t.fs else some false) with _ | rep <;> rfl

theorem rwtPostPhase_dst (axE : Bool) (axOut zip : String) (t : TryRWT) :
    (rwtPostPhase axE axOut zip t).dst = t.dst := by
  simp only [rwtPostPhase, cleanupRWT_eq]
  rcases hd : (if axE && (isfile t.src t.fs && isfile t.dst t.fs) then
      diffRun axOut t.src t.dst t.fs else some false) with _ | rep <;> rfl

/-- Claim C9: cleanup is total and idempotent.  Every deletion of the
cleanup block is guarded by an existence check, so cleanup never raises
(the result is always `some`), cleaning a state it already produced
changes nothing, and after cleanup none of the job's files (extracted
source, transformed output, archive) remains.  Both the three-file
cleanup of `read_write_test_compression.py` and the two-file cleanup of
`read_write_blosc_compression.py` are covered, for an arbitrary prior
working-directory state, hence also for states partially emptied by
earlier stages. -/
theorem c9_theorem (src dst zip : String) (fs : FS) :
    (∃ fs', cleanupRWT src dst zip fs = some fs' ∧
      cleanupRWT src dst zip fs' = some fs' ∧
      isfile src fs' = false ∧ isfile dst fs' = false ∧ isfile zip fs' = false) ∧
    (∃ fs2, cleanupRWB src dst fs = some fs2 ∧
      cleanupRWB src dst fs2 = some fs2 ∧
      isfile src fs2 = false ∧ isfile dst fs2 = false) := by
  constructor
  · have h1 : isfile src (osRemoveRaw zip (osRemoveRaw dst (osRemoveRaw src fs))) = false :=
      isfile_osRemoveRaw_mono zip (isfile_osRemoveRaw_mono dst (isfile_osRemoveRaw_self src fs))
    have h2 : isfile dst (osRemoveRaw zip (osRemoveRaw dst (osRemoveRaw src fs))) = false :=
      isfile_osRemoveRaw_mono zip (isfile_osRemoveRaw_self dst _)
    have h3 : isfile zip (osRemoveRaw zip (osRemoveRaw dst (osRemoveRaw src fs))) = false :=
      isfile_osRemoveRaw_self zip _
    refine ⟨_, cleanupRWT_eq src dst zip fs, ?_, h1, h2, h3⟩
    rw [cleanupRWT_eq, osRemoveRaw_of_not_isfile h1,
      osRemoveRaw_of_not_isfile h2, osRemoveRaw_of_not_isfile h3]
  · have h1 : isfile src (osRemoveRaw dst (osRemoveRaw src fs)) = false :=
      isfile_osRemoveRaw_mono dst (isfile_osRemoveRaw_self src fs)
    have h2 : isfile dst (osRemoveRaw dst (osRemoveRaw src fs)) = false :=
      isfile_osRemoveRaw_self dst _
    refine ⟨_, cleanupRWB_eq src dst fs, ?_, h1, h2⟩
    rw [cleanupRWB_eq, osRemoveRaw_of_not_isfile h1, osRemoveRaw_of_not_isfile h2]

/-- Claim C2, counterexample.  In `read_write_test_compression.py`, a job
whose extraction raises (`raised = true` and src/dst never assigned) still
loses its archive file: the unconditional per-job cleanup deletes it, so
"on an extraction failure the archive file is not removed by any stage" is
false for this script. -/
theorem c2_counterexample :
    isfile "x.vdb-1.0.0.zip" [("x.vdb-1.0.0.zip", (⟨[], 3⟩ : FileData))] = true ∧
    (rwtProcessJob false [] none (fun _ => 0) "" "x.vdb-1.0.0.zip"
      [("x.vdb-1.0.0.zip", ⟨[], 3⟩)]).raised = true ∧
    isfile "x.vdb-1.0.0.zip"
      (rwtProcessJob false [] none (fun _ => 0) "" "x.vdb-1.0.0.zip"
        [("x.vdb-1.0.0.zip", ⟨[], 3⟩)]).fs = false := by decide

/-- Claim C2, amended: in `download_vdb_caches.py` the archive is deleted
exactly when extraction succeeds (deleted right after a successful
`extractall`, untouched — the whole state is untouched — when extraction
raises).  In `read_write_test_compression.py` the extract stage never
deletes the archive; the per-job Cleanup deletes it unconditionally, so
whenever the job completes without an uncaught raise the archive is gone
whether extraction succeeded or not. -/
theorem c2_theorem :
    (∀ (entries : FS) (zip : String) (fs : FS),
        isfile zip (dlProcessJob (some entries) zip fs) = false) ∧
    (∀ (zip : String) (fs : FS), dlProcessJob none zip fs = fs) ∧
    (∀ (axE : Bool) (aliases : List (String × String)) (er : Option FS)
        (ws : List Grid → Nat) (axOut zip : String) (fs : FS),
        (rwtProcessJob axE aliases er ws axOut zip fs).aborted = false →
        isfile zip (rwtProcessJob axE aliases er ws axOut zip fs).fs = false) := by
  refine ⟨?_, ?_, ?_⟩
  · intro entries zip fs
    simp only [dlProcessJob, removeGuarded_eq]
    exact isfile_osRemoveRaw_self zip _
  · intro zip fs
    rfl
  · intro axE aliases er ws axOut zip fs hab
    simp only [rwtProcessJob] at hab ⊢
    rw [rwtPostPhase_fs_of_not_aborted axE axOut zip _ hab]
    exact isfile_osRemoveRaw_self zip _

/-- Claim C2, witness: concrete instances of the three amended parts.  For
`download_vdb_caches.py`, a successfully extracted archive is deleted; for
`read_write_test_compression.py`, the archive of a job with failed
extraction is gone after the job. -/
theorem c2_witness :
    isfile "x.vdb-1.0.0.zip"
      (dlProcessJob (some [("x.vdb", ⟨[], 4⟩)]) "x.vdb-1.0.0.zip"
        [("x.vdb-1.0.0.zip", ⟨[], 3⟩)]) = false ∧
    dlProcessJob none "y.zip" [("y.zip", ⟨[], 3⟩)] = [("y.zip", ⟨[], 3⟩)] ∧
    isfile "y.zip"
      (rwtProcessJob false [] none (fun _ => 0) "" "y.zip"
        [("y.zip", ⟨[], 3⟩)]).fs = false := by
  refine ⟨c2_theorem.1 _ _ _, c2_theorem.2.1 _ _, ?_⟩
  exact c2_theorem.2.2 false [] none (fun _ => 0) "" "y.zip"
    [("y.zip", ⟨[], 3⟩)] (by decide)

/-- Claim C3, counterexample.  `download_vdb_caches.py` violates the
leftover-free-exit property in two ways: a job whose extraction raises
leaves its archive file on disk forever (this script has no cleanup
stage), and a successfully processed job leaves its extracted data file on
disk by design (producing the caches is the script's purpose). -/
theorem c3_counterexample :
    isfile "x.vdb-1.0.0.zip"
      (dlProcessJob none "x.vdb-1.0.0.zip" [("x.vdb-1.0.0.zip", ⟨[], 3⟩)]) = true ∧
    isfile "x.vdb"
      (dlProcessJob (some [("x.vdb", ⟨[], 4⟩)]) "x.vdb-1.0.0.zip"
        [("x.vdb-1.0.0.zip", ⟨[], 3⟩)]) = true := by decide

/-- Claim C3, amended: in `read_write_test_compression.py`, after any job
that completes without an uncaught raise — including jobs whose extraction
or validation raised and was caught — none of the job's archive file,
extracted source file, or transformed output file remains in the working
directory.  In `download_vdb_caches.py` extracted data files are left on
disk by design, and the archive of a failed extraction is never removed. -/
theorem c3_theorem (axE : Bool) (aliases : List (String × String)) (er : Option FS)
    (ws : List Grid → Nat) (axOut zip : String) (fs : FS)
    (hab : (rwtProcessJob axE aliases er ws axOut zip fs).aborted = false) :
    isfile (rwtProcessJob axE aliases er ws axOut zip fs).src
      (rwtProcessJob axE aliases er ws axOut zip fs).fs = false ∧
    isfile (rwtProcessJob axE aliases er ws axOut zip fs).dst
      (rwtProcessJob axE aliases er ws axOut zip fs).fs = false ∧
    isfile zip (rwtProcessJob axE aliases er ws axOut zip fs).fs = false := by
  simp only [rwtProcessJob] at hab ⊢
  rw [rwtPostPhase_fs_of_not_aborted axE axOut zip _ hab,
    rwtPostPhase_src axE axOut zip _, rwtPostPhase_dst axE axOut zip _]
  refine ⟨?_, ?_, isfile_osRemoveRaw_self zip _⟩
  · exact isfile_osRemoveRaw_mono zip
      (isfile_osRemoveRaw_mono _ (isfile_osRemoveRaw_self _ _))
  · exact isfile_osRemoveRaw_mono zip (isfile_osRemoveRaw_self _ _)

/-- Claim C3, witness: a concrete `read_write_test_compression.py` job
(successful extraction of one single-grid file, AX disabled) ends with
neither the source, nor the output, nor the archive file present. -/
theorem c3_witness :
    isfile (rwtProcessJob false [] (some [("m.vdb", ⟨[⟨"a", "float"⟩], 6⟩)])
        (fun _ => 3) "" "m.vdb-1.0.0.zip" [("m.vdb-1.0.0.zip", ⟨[], 2⟩)]).src
      (rwtProcessJob false [] (some [("m.vdb", ⟨[⟨"a", "float"⟩], 6⟩)])
        (fun _ => 3) "" "m.vdb-1.0.0.zip" [("m.vdb-1.0.0.zip", ⟨[], 2⟩)]).fs = false ∧
    isfile (rwtProcessJob false [] (some [("m.vdb", ⟨[⟨"a", "float"⟩], 6⟩)])
        (fun _ => 3) "" "m.vdb-1.0.0.zip" [("m.vdb-1.0.0.zip", ⟨[], 2⟩)]).dst
      (rwtProcessJob false [] (some [("m.vdb", ⟨[⟨"a", "float"⟩], 6⟩)])
        (fun _ => 3) "" "m.vdb-1.0.0.zip" [("m.vdb-1.0.0.zip", ⟨[], 2⟩)]).fs = false ∧
    isfile "m.vdb-1.0.0.zip"
      (rwtProcessJob false [] (some [("m.vdb", ⟨[⟨"a", "float"⟩], 6⟩)])
        (fun _ => 3) "" "m.vdb-1.0.0.zip" [("m.vdb-1.0.0.zip", ⟨[], 2⟩)]).fs = false :=
  c3_theorem false [] (some [("m.vdb", ⟨[⟨"a", "float"⟩], 6⟩)])
    (fun _ => 3) "" "m.vdb-1.0.0.zip" [("m.vdb-1.0.0.zip", ⟨[], 2⟩)] (by decide)

/-- Claim C5, code-bug evaluation at the failing input.  For an extracted
data file holding THREE grids, the multiplicity guard never fires: `grids`
is the pair `(grid list, metadata)` returned by `readAll`, so
`len(grids) > 2` compares `2 > 2`.  The job therefore raises no
multiplicity error, writes a transformed output file containing all three
grids (first one renamed), and reports a ratio — where the claim (and the
code's own comment and error message, "refusing to read" files of multiple
grids) requires a caught `RuntimeError` and no output file. -/
theorem c5_theorem :
    (rwtTryPhase []
      (some [("m.vdb", ⟨[⟨"a", "float"⟩, ⟨"b", "float"⟩, ⟨"c", "float"⟩], 9⟩)])
      (fun _ => 5) "m.vdb-1.0.0.zip" [("m.vdb-1.0.0.zip", ⟨[], 2⟩)]).multErr = false ∧
    (rwtTryPhase []
      (some [("m.vdb", ⟨[⟨"a", "float"⟩, ⟨"b", "float"⟩, ⟨"c", "float"⟩], 9⟩)])
      (fun _ => 5) "m.vdb-1.0.0.zip" [("m.vdb-1.0.0.zip", ⟨[], 2⟩)]).raised = false ∧
    getData "m_blosc_compressed.vdb"
      (rwtTryPhase []
        (some [("m.vdb", ⟨[⟨"a", "float"⟩, ⟨"b", "float"⟩, ⟨"c", "float"⟩], 9⟩)])
        (fun _ => 5) "m.vdb-1.0.0.zip" [("m.vdb-1.0.0.zip", ⟨[], 2⟩)]).fs =
      some ⟨[⟨"a_output", "float"⟩, ⟨"b", "float"⟩, ⟨"c", "float"⟩], 5⟩ ∧
    (rwtTryPhase []
      (some [("m.vdb", ⟨[⟨"a", "float"⟩, ⟨"b", "float"⟩, ⟨"c", "float"⟩], 9⟩)])
      (fun _ => 5) "m.vdb-1.0.0.zip" [("m.vdb-1.0.0.zip", ⟨[], 2⟩)]).ratioRep.isSome =
      true := by decide

/-- Claim C10, counterexample.  For an input file holding exactly two
grids the write is `vdb.write(dst, grids[0])` with `grids[0]` the WHOLE
grid list, so the output file holds both grids (the first renamed, the
second verbatim) — the second unit is not dropped as the claim states. -/
theorem c10_counterexample :
    getData "d.vdb" (rwCore (fun _ => 4) "s.vdb" "d.vdb"
      [("s.vdb", ⟨[⟨"a", "float"⟩, ⟨"b", "int32"⟩], 8⟩)]).fs =
      some ⟨[⟨"a_output", "float"⟩, ⟨"b", "int32"⟩], 4⟩ ∧
    (getData "d.vdb" (rwCore (fun _ => 4) "s.vdb" "d.vdb"
      [("s.vdb", ⟨[⟨"a", "float"⟩, ⟨"b", "int32"⟩], 8⟩)]).fs).map
        (fun d => d.grids.length) = some 2 := by decide

/-- Claim C10, amended: a two-grid input file is indeed accepted (the
multiplicity error is never raised), and its first grid is renamed with
the `_output` suffix before writing; but the write emits the entire
in-memory grid list, so the transformed output file contains BOTH units —
the renamed first grid followed by the unchanged second grid. -/
theorem c10_theorem (ws : List Grid → Nat) (src dst : String) (fs : FS)
    (g1 g2 : Grid) (sz : Nat)
    (h : getData src fs = some ⟨[g1, g2], sz⟩) :
    (rwCore ws src dst fs).multErr = false ∧
    getData dst (rwCore ws src dst fs).fs =
      some ⟨[{ g1 with name := g1.name ++ "_output" }, g2],
        ws [{ g1 with name := g1.name ++ "_output" }, g2]⟩ := by
  have hw := rwCore_after_write ws src dst fs g1 [g2] sz h
  refine ⟨hw.2, ?_⟩
  rw [hw.1]
  exact getData_fsSet_self _ _ _

/-- Claim C10, witness: the amended theorem at a concrete two-grid file. -/
theorem c10_witness :
    (rwCore (fun l => l.length) "in.vdb" "out.vdb"
      [("in.vdb", ⟨[⟨"p", "vec3s"⟩, ⟨"q", "float"⟩], 10⟩)]).multErr = false ∧
    getData "out.vdb" (rwCore (fun l => l.length) "in.vdb" "out.vdb"
      [("in.vdb", ⟨[⟨"p", "vec3s"⟩, ⟨"q", "float"⟩], 10⟩)]).fs =
      some ⟨[⟨"p_output", "vec3s"⟩, ⟨"q", "float"⟩], 2⟩ :=
  c10_theorem (fun l => l.length) "in.vdb" "out.vdb"
    [("in.vdb", ⟨[⟨"p", "vec3s"⟩, ⟨"q", "float"⟩], 10⟩)]
    ⟨"p", "vec3s"⟩ ⟨"q", "float"⟩ 10 (by decide)

/-- Claim C6, counterexample.  Under the claim's precondition — both files
exist — the ratio can still be zero or the division can raise: with an
existing source file of size 0 the reported ratio is 0 (not strictly
positive), and with a written output of size 0 the division raises
`ZeroDivisionError`, which the per-job handler catches, so no ratio is
reported at all. -/
theorem c6_counterexample :
    (rwCore (fun _ => 7) "s.vdb" "d.vdb" [("s.vdb", ⟨[⟨"a", "float"⟩], 0⟩)]).ratioRep =
      some 0 ∧
    isfile "s.vdb"
      (rwCore (fun _ => 7) "s.vdb" "d.vdb" [("s.vdb", ⟨[⟨"a", "float"⟩], 0⟩)]).fs = true ∧
    isfile "d.vdb"
      (rwCore (fun _ => 7) "s.vdb" "d.vdb" [("s.vdb", ⟨[⟨"a", "float"⟩], 0⟩)]).fs = true ∧
    (rwCore (fun _ => 0) "s.vdb" "d.vdb" [("s.vdb", ⟨[⟨"a", "float"⟩], 5⟩)]).raised = true ∧
    (rwCore (fun _ => 0) "s.vdb" "d.vdb" [("s.vdb", ⟨[⟨"a", "float"⟩], 5⟩)]).ratioRep =
      none := by
  have h := rwCore_success (fun _ => 7) "s.vdb" "d.vdb"
    [("s.vdb", ⟨[⟨"a", "float"⟩], 0⟩)] ⟨"a", "float"⟩ [] 0
    (by decide) (by decide) (by decide)
  rw [h]
  refine ⟨?_, by decide, by decide, by decide, by decide⟩
  norm_num

/-- Claim C6, amended: whenever the source file is readable and both the
source size and the written output size are positive, the reported ratio
is exactly source size over output size as a rational number, and it is
strictly positive (and, being rational, finite).  When the output size is
zero the division raises instead, and when the source size is zero the
ratio is zero. -/
theorem c6_theorem (ws : List Grid → Nat) (src dst : String) (fs : FS)
    (g : Grid) (rest : List Grid) (sz : Nat)
    (hne : src ≠ dst)
    (h : getData src fs = some ⟨g :: rest, sz⟩)
    (hs : 0 < sz)
    (hw : 0 < ws ({ g with name := g.name ++ "_output" } :: rest)) :
    ∃ q : ℚ, (rwCore ws src dst fs).ratioRep = some q ∧ 0 < q ∧
      q = (sz : ℚ) / (ws ({ g with name := g.name ++ "_output" } :: rest) : ℚ) := by
  rw [rwCore_success ws src dst fs g rest sz hne h (by omega)]
  refine ⟨_, rfl, ?_, rfl⟩
  apply div_pos
  · exact_mod_cast hs
  · exact_mod_cast hw

/-- Claim C6, witness: the amended theorem at a concrete single-grid file
of size 6 with a written size of 2: the ratio is the positive rational 3. -/
theorem c6_witness :
    ∃ q : ℚ, (rwCore (fun _ => 2) "s.vdb" "d.vdb"
        [("s.vdb", ⟨[⟨"a", "float"⟩], 6⟩)]).ratioRep = some q ∧ 0 < q ∧
      q = (6 : ℚ) / ((2 : Nat) : ℚ) :=
  c6_theorem (fun _ => 2) "s.vdb" "d.vdb" [("s.vdb", ⟨[⟨"a", "float"⟩], 6⟩)]
    ⟨"a", "float"⟩ [] 6 (by decide) (by decide) (by decide) (by decide)

/-- Claim C7: before the transformed copy is written, the first in-memory
grid gets the fixed `_output` suffix appended to its name, and the first
unit stored in the output file therefore never carries the name of the
corresponding input unit (a string never equals itself extended by the
non-empty suffix). -/
theorem c7_theorem (ws : List Grid → Nat) (src dst : String) (fs : FS)
    (g : Grid) (rest : List Grid) (sz : Nat)
    (h : getData src fs = some ⟨g :: rest, sz⟩) :
    ∃ d : FileData, getData dst (rwCore ws src dst fs).fs = some d ∧
      d.grids.head? = some { g with name := g.name ++ "_output" } ∧
      ({ g with name := g.name ++ "_output" } : Grid).name ≠ g.name := by
  have hw := rwCore_after_write ws src dst fs g rest sz h
  refine ⟨⟨{ g with name := g.name ++ "_output" } :: rest,
      ws ({ g with name := g.name ++ "_output" } :: rest)⟩, ?_, rfl, ?_⟩
  · rw [hw.1]
    exact getData_fsSet_self _ _ _
  · intro hc
    have hlen := congrArg String.length hc
    rw [String.length_append] at hlen
    simp at hlen
    exact absurd hlen (by decide)

/-- Claim C7, witness: at a concrete single-grid file, the grid stored in
the output is named `density_output`, distinct from the input's
`density`. -/
theorem c7_witness :
    ∃ d : FileData, getData "d.vdb" (rwCore (fun _ => 3) "s.vdb" "d.vdb"
        [("s.vdb", ⟨[⟨"density", "float"⟩], 6⟩)]).fs = some d ∧
      d.grids.head? = some ⟨"density_output", "float"⟩ ∧
      (⟨"density_output", "float"⟩ : Grid).name ≠ "density" :=
  c7_theorem (fun _ => 3) "s.vdb" "d.vdb" [("s.vdb", ⟨[⟨"density", "float"⟩], 6⟩)]
    ⟨"density", "float"⟩ [] 6 (by decide)

/-! ### Lemmas about the diff stage -/

theorem diffRun_eq_some {axOut src dst : String} {fs : FS} {rep : Bool}
    (h : diffRun axOut src dst fs = some rep) : rep = true ↔ axOut ≠ "" := by
  unfold diffRun at h
  cases h1 : readAllGridMetadata src fs with
  | none => rw [h1] at h; simp at h
  | some ga =>
      rw [h1] at h
      cases h2 : readAllGridMetadata dst fs with
      | none => rw [h2] at h; simp at h
      | some gb =>
          rw [h2] at h
          cases ga with
          | nil => simp at h
          | cons a0 ga' =>
              cases gb with
              | nil => simp at h
              | cons b0 gb' =>
                  have h' : (if a0.valueTypeName ++ "@" ++ a0.name =
                        b0.valueTypeName ++ "@" ++ b0.name then (none : Option Bool)
                      else if axOut = "" then some false else some true) = some rep := h
                  by_cases hab2 : a0.valueTypeName ++ "@" ++ a0.name =
                      b0.valueTypeName ++ "@" ++ b0.name
                  · rw [if_pos hab2] at h'
                    simp at h'
                  · rw [if_neg hab2] at h'
                    by_cases ho : axOut = ""
                    · rw [if_pos ho] at h'
                      simp only [Option.some.injEq] at h'
                      subst h'
                      simp [ho]
                    · rw [if_neg ho] at h'
                      simp only [Option.some.injEq] at h'
                      subst h'
                      simp [ho]

theorem rwtPostPhase_differInvoked (axE : Bool) (axOut zip : String) (t : TryRWT) :
    (rwtPostPhase axE axOut zip t).differInvoked =
      (axE && (isfile t.src t.fs && isfile t.dst t.fs)) := by
  simp only [rwtPostPhase, cleanupRWT_eq]
  rcases hd : (if axE && (isfile t.src t.fs && isfile t.dst t.fs) then
      diffRun axOut t.src t.dst t.fs else some false) with _ | rep <;> rfl

theorem rwbPostPhase_differInvoked (axOut src dst : String) (core : TryOut) :
    (rwbPostPhase axOut src dst core).differInvoked =
      (isfile src core.fs && isfile dst core.fs) := by
  simp only [rwbPostPhase, cleanupRWB_eq]
  rcases hd : (if isfile src core.fs && isfile dst core.fs then
      diffRun axOut src dst core.fs else some false) with _ | rep <;> rfl

/-- Claim C8, counterexample.  In `read_write_test_compression.py` the
diff stage is additionally gated on AX support having been detected at
startup (`diff_with_ax`): here is a job after whose validation both the
original and the transformed file exist on disk, yet — AX being disabled —
the differ is not invoked, refuting "invoked exactly when both files
exist" (the subprocess output `"zzz"` would have been reported as a
mismatch had it run). -/
theorem c8_counterexample :
    isfile (rwtTryPhase [] (some [("m.vdb", ⟨[⟨"a", "float"⟩], 6⟩)])
        (fun _ => 3) "m.vdb-1.0.0.zip" []).src
      (rwtTryPhase [] (some [("m.vdb", ⟨[⟨"a", "float"⟩], 6⟩)])
        (fun _ => 3) "m.vdb-1.0.0.zip" []).fs = true ∧
    isfile (rwtTryPhase [] (some [("m.vdb", ⟨[⟨"a", "float"⟩], 6⟩)])
        (fun _ => 3) "m.vdb-1.0.0.zip" []).dst
      (rwtTryPhase [] (some [("m.vdb", ⟨[⟨"a", "float"⟩], 6⟩)])
        (fun _ => 3) "m.vdb-1.0.0.zip" []).fs = true ∧
    (rwtProcessJob false [] (some [("m.vdb", ⟨[⟨"a", "float"⟩], 6⟩)])
      (fun _ => 3) "zzz" "m.vdb-1.0.0.zip" []).differInvoked = false ∧
    (rwtProcessJob false [] (some [("m.vdb", ⟨[⟨"a", "float"⟩], 6⟩)])
      (fun _ => 3) "zzz" "m.vdb-1.0.0.zip" []).differRep = false := by decide

/-- Claim C8, amended: in `read_write_test_compression.py` the differ is
invoked exactly when AX support was detected at startup AND both files
exist after validation; in `read_write_blosc_compression.py` it is invoked
exactly when both files exist.  Whenever the job completes without an
uncaught raise, a mismatch is reported exactly when the differ was invoked
and the subprocess stdout is non-empty; in particular empty stdout (as
from a failed tool invocation) never yields a mismatch report. -/
theorem c8_theorem :
    (∀ (axE : Bool) (axOut zip : String) (t : TryRWT),
        (rwtPostPhase axE axOut zip t).differInvoked =
          (axE && (isfile t.src t.fs && isfile t.dst t.fs))) ∧
    (∀ (axOut src dst : String) (core : TryOut),
        (rwbPostPhase axOut src dst core).differInvoked =
          (isfile src core.fs && isfile dst core.fs)) ∧
    (∀ (axE : Bool) (axOut zip : String) (t : TryRWT),
        (rwtPostPhase axE axOut zip t).aborted = false →
        ((rwtPostPhase axE axOut zip t).differRep = true ↔
          ((rwtPostPhase axE axOut zip t).differInvoked = true ∧ axOut ≠ ""))) ∧
    (∀ (axOut src dst : String) (core : TryOut),
        (rwbPostPhase axOut src dst core).aborted = false →
        ((rwbPostPhase axOut src dst core).differRep = true ↔
          ((rwbPostPhase axOut src dst core).differInvoked = true ∧ axOut ≠ ""))) := by
  refine ⟨rwtPostPhase_differInvoked, rwbPostPhase_differInvoked, ?_, ?_⟩
  · intro axE axOut zip t hab
    rw [rwtPostPhase_differInvoked]
    simp only [rwtPostPhase, cleanupRWT_eq] at hab ⊢
    rcases hd : (if axE && (isfile t.src t.fs && isfile t.dst t.fs) then
        diffRun axOut t.src t.dst t.fs else some false) with _ | rep
    · rw [hd] at hab
      simp at hab
    · by_cases hcond : (axE && (isfile t.src t.fs && isfile t.dst t.fs)) = true
      · rw [if_pos hcond] at hd
        have hiff := diffRun_eq_some hd
        simp only [hcond, true_and]
        exact hiff
      · rw [if_neg hcond] at hd
        simp only [Option.some.injEq] at hd
        rw [← hd]
        simp [hcond]
  · intro axOut src dst core hab
    rw [rwbPostPhase_differInvoked]
    simp only [rwbPostPhase, cleanupRWB_eq] at hab ⊢
    rcases hd : (if isfile src core.fs && isfile dst core.fs then
        diffRun axOut src dst core.fs else some false) with _ | rep
    · rw [hd] at hab
      simp at hab
    · by_cases hcond : (isfile src core.fs && isfile dst core.fs) = true
      · rw [if_pos hcond] at hd
        have hiff := diffRun_eq_some hd
        simp only [hcond, true_and]
        exact hiff
      · rw [if_neg hcond] at hd
        simp only [Option.some.injEq] at hd
        rw [← hd]
        simp [hcond]

/-- Claim C8, witness: the amended characterisation applied to concrete
post-validation states in which both files exist, for each script: with
stdout `"out"` (and, in the first script, AX enabled) the differ is
invoked and the mismatch is reported. -/
theorem c8_witness :
    ((rwtPostPhase true "out" "z.zip"
        ⟨[("s.vdb", ⟨[⟨"a", "float"⟩], 6⟩), ("d.vdb", ⟨[⟨"a_output", "float"⟩], 3⟩)],
          "s.vdb", "d.vdb", false, false, none⟩).differRep = true ↔
      ((rwtPostPhase true "out" "z.zip"
          ⟨[("s.vdb", ⟨[⟨"a", "float"⟩], 6⟩), ("d.vdb", ⟨[⟨"a_output", "float"⟩], 3⟩)],
            "s.vdb", "d.vdb", false, false, none⟩).differInvoked = true ∧
        ("out" : String) ≠ "")) ∧
    ((rwbPostPhase "out" "s.vdb" "d.vdb"
        ⟨[("s.vdb", ⟨[⟨"a", "float"⟩], 6⟩), ("d.vdb", ⟨[⟨"a_output", "float"⟩], 3⟩)],
          false, false, none⟩).differRep = true ↔
      ((rwbPostPhase "out" "s.vdb" "d.vdb"
          ⟨[("s.vdb", ⟨[⟨"a", "float"⟩], 6⟩), ("d.vdb", ⟨[⟨"a_output", "float"⟩], 3⟩)],
            false, false, none⟩).differInvoked = true ∧
        ("out" : String) ≠ "")) :=
  ⟨c8_theorem.2.2.1 true "out" "z.zip"
      ⟨[("s.vdb", ⟨[⟨"a", "float"⟩], 6⟩), ("d.vdb", ⟨[⟨"a_output", "float"⟩], 3⟩)],
        "s.vdb", "d.vdb", false, false, none⟩ (by decide),
    c8_theorem.2.2.2 "out" "s.vdb" "d.vdb"
      ⟨[("s.vdb", ⟨[⟨"a", "float"⟩], 6⟩), ("d.vdb", ⟨[⟨"a_output", "float"⟩], 3⟩)],
        false, false, none⟩ (by decide)⟩

/-- Claim C1, witness: the amended count statement at a concrete two-entry
catalog with distinct derived names: two threads started, two units
drained. -/
theorem c1_witness :
    (initDownloads (fun _ => 0) ["a/x.zip", "b/y.zip"]).1.length = 2 ∧
    (drainLoop (initDownloads (fun _ => 0) ["a/x.zip", "b/y.zip"]).2).length =
      ((["a/x.zip", "b/y.zip"].map basename).toFinset).card :=
  c1_theorem (fun _ => 0) ["a/x.zip", "b/y.zip"]

/-- Claim C9, witness: cleanup totality, idempotence and residual-freeness
at a concrete one-file working directory. -/
theorem c9_witness :
    (∃ fs', cleanupRWT "s.vdb" "d.vdb" "z.zip" [("s.vdb", ⟨[], 1⟩)] = some fs' ∧
      cleanupRWT "s.vdb" "d.vdb" "z.zip" fs' = some fs' ∧
      isfile "s.vdb" fs' = false ∧ isfile "d.vdb" fs' = false ∧
      isfile "z.zip" fs' = false) ∧
    (∃ fs2, cleanupRWB "s.vdb" "d.vdb" [("s.vdb", ⟨[], 1⟩)] = some fs2 ∧
      cleanupRWB "s.vdb" "d.vdb" fs2 = some fs2 ∧
      isfile "s.vdb" fs2 = false ∧ isfile "d.vdb" fs2 = false) :=
  c9_theorem "s.vdb" "d.vdb" "z.zip" [("s.vdb", ⟨[], 1⟩)]

end VdbCI
